import Mathlib

/-!
Shallow embedding of `Vegetation_Segmentation/utils.py` and verification of
its specification.

Arrays of IEEE double values are modelled as lists (1-D) or finite grids
(2-D) of `Val`, an exact-rational model of the float values that actually
arise in this pipeline: finite values, the two infinities produced by
division of a nonzero number by zero, and NaN (the "no data" sentinel,
produced by 0/0 and by `np.full(shape, np.nan)`).  Unsigned integer band
arrays are lists or grids of `ℕ`; `astype(float)` is the cast into `ℚ`.

Arithmetic is written in kernel-reducible normal forms (`Rat.divInt`,
`Int.tdiv`, `mkRat` literals) so that every definition evaluates on
concrete inputs; bridge lemmas (`qdiv_eq_div`, `Rat.divInt_eq_div`) relate
these forms to ordinary field division on `ℚ`.
-/

instance {ε α : Type} [DecidableEq ε] [DecidableEq α] : DecidableEq (Except ε α) :=
  fun x y =>
    match x, y with
    | .ok a, .ok b =>
      if h : a = b then .isTrue (by rw [h]) else .isFalse (fun hh => h (by injection hh))
    | .error e, .error f =>
      if h : e = f then .isTrue (by rw [h]) else .isFalse (fun hh => h (by injection hh))
    | .ok _, .error _ => .isFalse (fun hh => Except.noConfusion hh)
    | .error _, .ok _ => .isFalse (fun hh => Except.noConfusion hh)

/-- Model of an IEEE double as it occurs in this pipeline: an exact rational,
one of the two infinities, or NaN (the no-data sentinel). -/
inductive Val : Type
  | fin (q : ℚ)
  | posInf
  | negInf
  | nan
  deriving DecidableEq, Repr

namespace Val

/-- IEEE comparison `v >= c` against a finite constant: false whenever `v` is NaN. -/
def geQ : Val → ℚ → Bool
  | .fin q, c => decide (c ≤ q)
  | .posInf, _ => true
  | _, _ => false

/-- IEEE comparison `v <= c` against a finite constant: false whenever `v` is NaN. -/
def leQ : Val → ℚ → Bool
  | .fin q, c => decide (q ≤ c)
  | .negInf, _ => true
  | _, _ => false

/-- IEEE comparison `v < c` against a finite constant: false whenever `v` is NaN. -/
def ltQ : Val → ℚ → Bool
  | .fin q, c => decide (q < c)
  | .negInf, _ => true
  | _, _ => false

/-- IEEE comparison `v > c` against a finite constant: false whenever `v` is NaN. -/
def gtQ : Val → ℚ → Bool
  | .fin q, c => decide (c < q)
  | .posInf, _ => true
  | _, _ => false

end Val

/-- Rational division in a kernel-reducible normal form; `qdiv_eq_div`
shows it is exactly `a / b` on `ℚ`. -/
def qdiv (a b : ℚ) : ℚ :=
  Rat.divInt (a.num * (b.den : ℤ)) ((a.den : ℤ) * b.num)

theorem qdiv_eq_div (a b : ℚ) : qdiv a b = a / b :=
  (Rat.div_def' a b).symm

/-- Outcome of the numpy float division `a / c` of two exact (integer-valued)
operands under `np.seterr(divide="ignore", invalid="ignore")`: a zero
denominator yields NaN for a zero numerator (invalid, 0/0) and a signed
infinity otherwise (divide); no exception is ever raised.  A nonzero
denominator yields the exact finite quotient. -/
def divValInt (a c : ℤ) : Val :=
  if c = 0 then (if a = 0 then .nan else if 0 < a then .posInf else .negInf)
  else .fin (Rat.divInt a c)

theorem divValInt_of_ne_zero {c : ℤ} (a : ℤ) (hc : c ≠ 0) :
    divValInt a c = .fin ((a : ℚ) / (c : ℚ)) := by
  rw [divValInt, if_neg hc, Rat.divInt_eq_div]

/-- Per-pixel VARI from `get_vegetation_index`:
`(green - red) / (green + red - blue)` after casting each band to float.
On integer band samples the numerator and denominator are themselves
integers, so they are formed in `ℤ`; the cast into `ℚ` commutes with the
ring operations (see `get_vegetation_index_formulas`). -/
def variCell (b g r : ℕ) : Val :=
  divValInt ((g : ℤ) - (r : ℤ)) ((g : ℤ) + (r : ℤ) - (b : ℤ))

/-- Per-pixel GLI from `get_vegetation_index`:
`(2*green - red - blue) / (2*green + red + blue)` after casting to float. -/
def gliCell (b g r : ℕ) : Val :=
  divValInt (2 * (g : ℤ) - (r : ℤ) - (b : ℤ)) (2 * (g : ℤ) + (r : ℤ) + (b : ℤ))

/-- Per-pixel RGRI from `get_vegetation_index`: `red / green` after casting
to float (the blue band is not used by this formula). -/
def rgriCell (_b g r : ℕ) : Val :=
  divValInt (r : ℤ) (g : ℤ)

/-- Dispatch of `get_vegetation_index` on `index_type`: the `if`/`elif` chain
selecting the per-pixel formula, with the final `else` raising
`ValueError(f"Unknown index type: {index_type}")`. -/
def indexFormula (index_type : String) : Except String (ℕ → ℕ → ℕ → Val) :=
  if index_type = "VARI" then .ok variCell
  else if index_type = "GLI" then .ok gliCell
  else if index_type = "RGRI" then .ok rgriCell
  else .error ("Unknown index type: " ++ index_type)

/-- Elementwise combination of three same-shaped arrays (numpy broadcasting
of the band arithmetic, 1-D case); truncates at the shortest list. -/
def map3 (f : ℕ → ℕ → ℕ → Val) : List ℕ → List ℕ → List ℕ → List Val
  | b :: bs, g :: gs, r :: rs => f b g r :: map3 f bs gs rs
  | _, _, _ => []

/-- `get_vegetation_index(blue, green, red, index_type)` on 1-D arrays
(the `normalize` parameter of the source is accepted but never used, so it
is omitted). -/
def get_vegetation_index (blue green red : List ℕ) (index_type : String) :
    Except String (List Val) :=
  (indexFormula index_type).map (fun f => map3 f blue green red)

/-- Per-cell rule of `threshold` for the vegetation mask: the cell of
`np.full(shape, np.nan)` is overwritten with 1 exactly where
`(index >= min) & (index <= max)` holds under IEEE comparison. -/
def vegCell (mn mx : ℚ) (v : Val) : Val :=
  if v.geQ mn && v.leQ mx then .fin 1 else .nan

/-- Per-cell rule of `threshold` for the non-vegetation mask: 1 exactly where
`(index < min) | (index > max)` holds under IEEE comparison, NaN elsewhere. -/
def nonvegCell (mn mx : ℚ) (v : Val) : Val :=
  if v.ltQ mn || v.gtQ mx then .fin 1 else .nan

/-- `threshold(index, min, max)` on 1-D arrays.  The Python defaults are
`min=0.1`, `max=1.0`; callers of this model pass the bounds explicitly. -/
def threshold (index : List Val) (mn mx : ℚ) : List Val × List Val :=
  (index.map (vegCell mn mx), index.map (nonvegCell mn mx))

/-- The fixed 24-entry GSD table of `get_gsd_from_zoom` (meters per pixel at
the equator, zoom levels 0 to 23); each decimal literal of the source is
written as its exact value in hundredths. -/
def gsd_meters_per_pixel : List ℚ :=
  [mkRat 15641200 100, mkRat 7820600 100, mkRat 3910300 100, mkRat 1955150 100,
   mkRat 977580 100, mkRat 488780 100, mkRat 244390 100, mkRat 122190 100,
   mkRat 61098 100, mkRat 30549 100, mkRat 15274 100, mkRat 7637 100,
   mkRat 3819 100, mkRat 1909 100, mkRat 955 100, mkRat 478 100,
   mkRat 239 100, mkRat 119 100, mkRat 60 100, mkRat 30 100,
   mkRat 15 100, mkRat 7 100, mkRat 4 100, mkRat 2 100]

/-- `get_gsd_from_zoom(zoom_level)`: table lookup guarded by
`0 <= zoom_level < len(gsd_meters_per_pixel)`; out of range raises
`ValueError` with a fixed message. -/
def get_gsd_from_zoom (zoom_level : ℤ) : Except String ℚ :=
  if h : 0 ≤ zoom_level ∧ zoom_level < 24 then
    .ok (gsd_meters_per_pixel.get ⟨zoom_level.toNat, by
      have h24 : zoom_level.toNat < 24 := by omega
      simpa [gsd_meters_per_pixel] using h24⟩)
  else
    .error "Invalid zoom level. Please provide a zoom level between 0 and 23."

/-- Truncation toward zero, the semantics of Python `int()` on a float:
on a reduced fraction this is the t-division of numerator by denominator. -/
def truncQ (q : ℚ) : ℤ :=
  Int.tdiv q.num (q.den : ℤ)

/-- `get_kernel_size(gsd)`: `int(2 / gsd)`, then `+ 1` if even.  Python float
division raises `ZeroDivisionError` when `gsd` is exactly zero, hence the
error branch; no other validation exists in the source. -/
def get_kernel_size (gsd : ℚ) : Except String ℤ :=
  if gsd = 0 then .error "ZeroDivisionError: float division by zero"
  else
    let diameter_of_object : ℚ := 2
    let diameter_of_object_px := qdiv diameter_of_object gsd
    let kernel_size := truncQ diameter_of_object_px
    .ok (if kernel_size % 2 = 0 then kernel_size + 1 else kernel_size)

/-- Rank embedding of `Val` into `ℤ ×ₗ ℚ` used to transfer a linear order.
The source applies `cv2.morphologyEx` (pixelwise min/max filters) to float
arrays; on the special values the comparison order chosen here places NaN
below everything (cv2's behaviour on NaN under SIMD min/max is unspecified;
no claim verified below depends on this choice). -/
def Val.rank : Val → ℤ ×ₗ ℚ
  | .nan => toLex (-1, 0)
  | .negInf => toLex (1, 0)
  | .fin q => toLex (2, q)
  | .posInf => toLex (3, 0)

theorem Val.rank_injective : Function.Injective Val.rank := by
  intro a b h
  cases a <;> cases b <;> simp_all [Val.rank]

instance : LinearOrder Val :=
  LinearOrder.lift' Val.rank Val.rank_injective

/-- Addition of IEEE values as produced by summing a convolution window:
finite values add exactly, an infinity absorbs finite values, opposite
infinities and NaN give NaN. -/
def Val.add : Val → Val → Val
  | .fin a, .fin b => .fin (a + b)
  | .fin _, .posInf => .posInf
  | .fin _, .negInf => .negInf
  | .posInf, .fin _ => .posInf
  | .negInf, .fin _ => .negInf
  | .posInf, .posInf => .posInf
  | .negInf, .negInf => .negInf
  | _, _ => .nan

/-- Division of an IEEE value by a positive integer (window size). -/
def Val.divNat : Val → ℕ → Val
  | .fin q, k => .fin (qdiv q (k : ℚ))
  | .posInf, _ => .posInf
  | .negInf, _ => .negInf
  | .nan, _ => .nan

/-- A 2-D image array with entries in `V`. -/
abbrev Grid (m n : ℕ) (V : Type) : Type := Fin m × Fin n → V

/-- Footprint of the square all-ones `np.ones((2t+1, 2t+1))` structuring
element anchored at its centre, clipped to the image bounds.  Clipping
matches cv2's default border handling for morphology (erosion pads with
+inf and dilation with -inf, so out-of-bounds neighbours never contribute
to the min/max). -/
def window {m n : ℕ} (t : ℕ) (p : Fin m × Fin n) : Finset (Fin m × Fin n) :=
  Finset.univ.filter fun q =>
    |(q.1 : ℤ) - (p.1 : ℤ)| ≤ (t : ℤ) ∧ |(q.2 : ℤ) - (p.2 : ℤ)| ≤ (t : ℤ)

theorem self_mem_window {m n : ℕ} (t : ℕ) (p : Fin m × Fin n) : p ∈ window t p := by
  simp [window]

theorem mem_window_symm {m n : ℕ} {t : ℕ} {p q : Fin m × Fin n} :
    q ∈ window t p ↔ p ∈ window t q := by
  simp [window, abs_sub_comm]

section Morphology

variable {m n : ℕ} {V : Type} [LinearOrder V]

/-- `cv2.erode` with the square all-ones kernel of radius `t`: pixelwise
minimum over the clipped window. -/
def erode (t : ℕ) (x : Grid m n V) : Grid m n V :=
  fun p => (window t p).inf' ⟨p, self_mem_window t p⟩ x

/-- `cv2.dilate` with the square all-ones kernel of radius `t`: pixelwise
maximum over the clipped window. -/
def dilate (t : ℕ) (x : Grid m n V) : Grid m n V :=
  fun p => (window t p).sup' ⟨p, self_mem_window t p⟩ x

theorem erode_mono {t : ℕ} {x y : Grid m n V} (h : x ≤ y) : erode t x ≤ erode t y := by
  intro p
  refine Finset.le_inf' _ _ fun q hq => ?_
  exact le_trans (Finset.inf'_le x hq) (h q)

theorem dilate_mono {t : ℕ} {x y : Grid m n V} (h : x ≤ y) : dilate t x ≤ dilate t y := by
  intro p
  refine Finset.sup'_le _ _ fun q hq => ?_
  exact le_trans (h q) (Finset.le_sup' y hq)

/-- Dilation and erosion by the same symmetric structuring element form a
Galois connection (the adjunction of mathematical morphology). -/
theorem dilate_le_iff {t : ℕ} {x y : Grid m n V} :
    dilate t y ≤ x ↔ y ≤ erode t x := by
  constructor
  · intro h q
    refine Finset.le_inf' _ _ fun p hp => ?_
    exact le_trans (Finset.le_sup' y (mem_window_symm.mp hp)) (h p)
  · intro h p
    refine Finset.sup'_le _ _ fun q hq => ?_
    exact le_trans (h q) (Finset.inf'_le x (mem_window_symm.mp hq))

theorem dilate_erode_le (t : ℕ) (x : Grid m n V) : dilate t (erode t x) ≤ x :=
  dilate_le_iff.mpr le_rfl

theorem le_erode_dilate (t : ℕ) (y : Grid m n V) : y ≤ erode t (dilate t y) :=
  dilate_le_iff.mp le_rfl

theorem erode_dilate_erode (t : ℕ) (x : Grid m n V) :
    erode t (dilate t (erode t x)) = erode t x :=
  le_antisymm (erode_mono (dilate_erode_le t x)) (le_erode_dilate t (erode t x))

theorem dilate_erode_dilate (t : ℕ) (y : Grid m n V) :
    dilate t (erode t (dilate t y)) = dilate t y :=
  le_antisymm (dilate_erode_le t (dilate t y)) (dilate_mono (le_erode_dilate t y))

/-- `cv2.morphologyEx(mask, cv2.MORPH_OPEN, kernel)`: erosion then dilation. -/
def opening (x : Grid m n V) (t : ℕ) : Grid m n V :=
  dilate t (erode t x)

/-- `cv2.morphologyEx(mask, cv2.MORPH_CLOSE, kernel)`: dilation then erosion. -/
def closing (x : Grid m n V) (t : ℕ) : Grid m n V :=
  erode t (dilate t x)

theorem opening_idem (x : Grid m n V) (t : ℕ) : opening (opening x t) t = opening x t := by
  unfold opening
  rw [erode_dilate_erode]

theorem closing_idem (x : Grid m n V) (t : ℕ) : closing (closing x t) t = closing x t := by
  unfold closing
  rw [dilate_erode_dilate]

theorem opening_le (x : Grid m n V) (t : ℕ) : opening x t ≤ x :=
  dilate_erode_le t x

theorem le_closing (x : Grid m n V) (t : ℕ) : x ≤ closing x t :=
  le_erode_dilate t x

theorem opening_mono {x y : Grid m n V} {t : ℕ} (h : x ≤ y) : opening x t ≤ opening y t :=
  dilate_mono (erode_mono h)

theorem closing_mono {x y : Grid m n V} {t : ℕ} (h : x ≤ y) : closing x t ≤ closing y t :=
  erode_mono (dilate_mono h)

/-- Radius of the centred square `np.ones((k, k))` structuring element: for
odd `k = 2t + 1` the kernel spans `t` pixels in each direction from the
anchor. -/
def radiusOfKernel (k : ℤ) : ℕ :=
  ((k - 1) / 2).toNat

/-- `morphological_operations(mask, kernel_size)`: opening with the all-ones
square kernel, then closing of the result with an identical kernel. -/
def morphological_operations (mask : Grid m n V) (kernel_size : ℤ) : Grid m n V :=
  closing (opening mask (radiusOfKernel kernel_size)) (radiusOfKernel kernel_size)

end Morphology

/-- Footprint of the square smoothing kernel as a list (same clipped window
as `window`, in row-major enumeration order); always contains `p` itself. -/
def windowList {m n : ℕ} (t : ℕ) (p : Fin m × Fin n) : List (Fin m × Fin n) :=
  ((List.finRange m).product (List.finRange n)).filter fun q =>
    decide (|(q.1 : ℤ) - (p.1 : ℤ)| ≤ (t : ℤ)) && decide (|(q.2 : ℤ) - (p.2 : ℤ)| ≤ (t : ℤ))

/-- Modelled from the spec: `smoothing(mask, kernel_size)` calls
`cv2.GaussianBlur(mask, (kernel_size, kernel_size), 1)`, which is external
library code whose exact floating-point Gaussian weights are not part of
this repository.  It is modelled as a convolution with a symmetric,
strictly positive, normalized kernel of the specified square footprint —
here the normalized average of the clipped window — producing a
continuous-valued soft mask; no claim verified below depends on the
particular weights.  NaN and infinity propagate through the window sum as
in IEEE arithmetic. -/
def smoothing {m n : ℕ} (mask : Grid m n Val) (kernel_size : ℤ) : Grid m n Val :=
  fun p =>
    let w := windowList (radiusOfKernel kernel_size) p
    ((w.map mask).foldr Val.add (.fin 0)).divNat w.length

/-- `threshold(index, min, max)` on 2-D arrays: the same per-cell rule as the
1-D `threshold`, lifted pixelwise. -/
def threshold_arr {m n : ℕ} (index : Grid m n Val) (mn mx : ℚ) :
    Grid m n Val × Grid m n Val :=
  (fun p => vegCell mn mx (index p), fun p => nonvegCell mn mx (index p))

/-- `get_vegetation_index(blue, green, red, index_type)` on 2-D arrays: the
same dispatch and per-pixel formulas as the 1-D version, lifted pixelwise. -/
def get_vegetation_index_arr {m n : ℕ} (blue green red : Grid m n ℕ)
    (index_type : String) : Except String (Grid m n Val) :=
  (indexFormula index_type).map (fun f => fun p => f (blue p) (green p) (red p))

/-- `process_image(image_path, zoom_level, index_min, index_max,
vegetation_index)`.  Reading the bands from `image_path` is delegated to the
external Band Reader collaborator (`get_bands` / rasterio), so this model
takes the three band grids directly.  `index_min` and `vegetation_index`
are defaulted to `0.1` and `"VARI"` when passed as `None` (modelled by
`Option`); `index_max` is accepted but never consulted — the source calls
`threshold(veg_index, index_min)`, leaving `max` at its default `1.0`.
Returns only the final smoothed vegetation mask. -/
def process_image {m n : ℕ} (blue green red : Grid m n ℕ) (zoom_level : ℤ)
    (index_min : Option ℚ) (index_max : Option ℚ)
    (vegetation_index : Option String) : Except String (Grid m n Val) := do
  let imin := index_min.getD (mkRat 1 10)
  let vi := vegetation_index.getD "VARI"
  let gsd ← get_gsd_from_zoom zoom_level
  let kernel_size ← get_kernel_size gsd
  let veg_index ← get_vegetation_index_arr blue green red vi
  let (vegetation_mask, _) := threshold_arr veg_index imin 1
  let filtered_mask := morphological_operations vegetation_mask kernel_size
  return smoothing filtered_mask kernel_size

theorem map_getD {α β : Type} (f : α → β) (l : List α) (i : ℕ) (hi : i < l.length)
    (d : β) (d' : α) : (l.map f).getD i d = f (l.getD i d') := by
  induction l generalizing i with
  | nil => simp at hi
  | cons a l ih =>
    cases i with
    | zero => rfl
    | succ k => simpa using ih k (by simpa using hi)

theorem map3_length (f : ℕ → ℕ → ℕ → Val) (bs gs rs : List ℕ)
    (hg : gs.length = bs.length) (hr : rs.length = bs.length) :
    (map3 f bs gs rs).length = bs.length := by
  induction bs generalizing gs rs with
  | nil =>
    cases gs with
    | nil => cases rs with
      | nil => rfl
      | cons _ _ => simp at hr
    | cons _ _ => simp at hg
  | cons b bs ih =>
    cases gs with
    | nil => simp at hg
    | cons g gs =>
      cases rs with
      | nil => simp at hr
      | cons r rs =>
        simpa [map3] using ih gs rs (by simpa using hg) (by simpa using hr)

theorem map3_getD (f : ℕ → ℕ → ℕ → Val) (bs gs rs : List ℕ)
    (hg : gs.length = bs.length) (hr : rs.length = bs.length)
    (i : ℕ) (hi : i < bs.length) (d : Val) :
    (map3 f bs gs rs).getD i d = f (bs.getD i 0) (gs.getD i 0) (rs.getD i 0) := by
  induction bs generalizing gs rs i with
  | nil => simp at hi
  | cons b bs ih =>
    cases gs with
    | nil => simp at hg
    | cons g gs =>
      cases rs with
      | nil => simp at hr
      | cons r rs =>
        cases i with
        | zero => rfl
        | succ k =>
          simpa [map3] using
            ih gs rs (by simpa using hg) (by simpa using hr) k (by simpa using hi)

theorem map3_replicate (f : ℕ → ℕ → ℕ → Val) (k : ℕ) (x y z : ℕ) :
    map3 f (List.replicate k x) (List.replicate k y) (List.replicate k z) =
      List.replicate k (f x y z) := by
  induction k with
  | zero => rfl
  | succ k ih => simp [List.replicate_succ, map3, ih]

theorem vegCell_fin (mn mx q : ℚ) :
    vegCell mn mx (.fin q) = if mn ≤ q ∧ q ≤ mx then .fin 1 else .nan := by
  by_cases h1 : mn ≤ q <;> by_cases h2 : q ≤ mx <;>
    simp [vegCell, Val.geQ, Val.leQ, h1, h2]

theorem nonvegCell_fin (mn mx q : ℚ) :
    nonvegCell mn mx (.fin q) = if q < mn ∨ mx < q then .fin 1 else .nan := by
  by_cases h1 : q < mn <;> by_cases h2 : mx < q <;>
    simp [nonvegCell, Val.ltQ, Val.gtQ, h1, h2]

/-- C1.  `threshold` returns two arrays of the input's shape; a finite cell
inside `[min, max]` is marked 1 in the vegetation mask and left NaN in the
non-vegetation mask, a finite cell outside the range is marked 1 in the
non-vegetation mask and left NaN in the vegetation mask, and a NaN
(no-data) cell stays NaN in both outputs; on the spec's example
`threshold([0.05, 0.5, 1.5], min=0.1, max=1.0)` the masks are
`[NaN, 1, NaN]` and `[1, NaN, 1]`. -/
theorem threshold_masks_spec (index : List Val) (mn mx : ℚ) :
    (threshold index mn mx).1.length = index.length ∧
    (threshold index mn mx).2.length = index.length ∧
    (∀ i q, i < index.length → index.getD i .nan = .fin q →
      ((mn ≤ q ∧ q ≤ mx) →
        (threshold index mn mx).1.getD i .nan = .fin 1 ∧
        (threshold index mn mx).2.getD i .nan = .nan) ∧
      (¬(mn ≤ q ∧ q ≤ mx) →
        (threshold index mn mx).1.getD i .nan = .nan ∧
        (threshold index mn mx).2.getD i .nan = .fin 1)) ∧
    (∀ i, i < index.length → index.getD i (.fin 0) = .nan →
      (threshold index mn mx).1.getD i (.fin 0) = .nan ∧
      (threshold index mn mx).2.getD i (.fin 0) = .nan) ∧
    threshold [.fin (mkRat 5 100), .fin (mkRat 50 100), .fin (mkRat 150 100)]
      (mkRat 10 100) 1 = ([.nan, .fin 1, .nan], [.fin 1, .nan, .fin 1]) := by
  refine ⟨by simp [threshold], by simp [threshold], ?_, ?_, by decide⟩
  · intro i q hi hq
    have hv : (threshold index mn mx).1.getD i .nan = vegCell mn mx (index.getD i .nan) :=
      map_getD _ _ i hi _ _
    have hn : (threshold index mn mx).2.getD i .nan = nonvegCell mn mx (index.getD i .nan) :=
      map_getD _ _ i hi _ _
    rw [hq] at hv hn
    constructor
    · intro hin
      rw [hv, hn, vegCell_fin, nonvegCell_fin, if_pos hin, if_neg (by push_neg; exact hin)]
      exact ⟨rfl, rfl⟩
    · intro hout
      rw [hv, hn, vegCell_fin, nonvegCell_fin, if_neg hout, if_pos (by
        rcases lt_or_le q mn with h | h
        · exact Or.inl h
        · exact Or.inr (lt_of_not_le fun hmx => hout ⟨h, hmx⟩))]
      exact ⟨rfl, rfl⟩
  · intro i hi hq
    have hv : (threshold index mn mx).1.getD i (.fin 0) =
        vegCell mn mx (index.getD i (.fin 0)) := map_getD _ _ i hi _ _
    have hn : (threshold index mn mx).2.getD i (.fin 0) =
        nonvegCell mn mx (index.getD i (.fin 0)) := map_getD _ _ i hi _ _
    rw [hq] at hv hn
    exact ⟨hv, hn⟩

theorem threshold_masks_spec_witness :
    (threshold [.fin (mkRat 5 100), .fin (mkRat 50 100), .fin (mkRat 150 100)]
      (mkRat 10 100) 1).1.getD 1 .nan = .fin 1 ∧
    (threshold [.fin (mkRat 5 100), .fin (mkRat 50 100), .fin (mkRat 150 100)]
      (mkRat 10 100) 1).2.getD 0 .nan = .fin 1 := by
  have h := threshold_masks_spec
    [.fin (mkRat 5 100), .fin (mkRat 50 100), .fin (mkRat 150 100)] (mkRat 10 100) 1
  constructor
  · exact ((h.2.2.1 1 (mkRat 50 100) (by decide) (by decide)).1 (by decide)).1
  · exact ((h.2.2.1 0 (mkRat 5 100) (by decide) (by decide)).2 (by decide)).2

/-- C4.  `get_gsd_from_zoom` performs an exact lookup in the fixed 24-entry
GSD table (156412.0 at zoom 0 down to 0.02 at zoom 23) for every integer
zoom level in `[0, 23]`, and fails with the `ValueError` for every integer
zoom level outside that range (in particular 24 and -1). -/
theorem get_gsd_from_zoom_spec :
    gsd_meters_per_pixel.length = 24 ∧
    get_gsd_from_zoom 0 = .ok 156412 ∧
    get_gsd_from_zoom 23 = .ok (mkRat 2 100) ∧
    (∀ z : ℤ, 0 ≤ z → z ≤ 23 →
      ∃ h : z.toNat < gsd_meters_per_pixel.length,
        get_gsd_from_zoom z = .ok (gsd_meters_per_pixel.get ⟨z.toNat, h⟩)) ∧
    (∀ z : ℤ, z < 0 ∨ 23 < z → get_gsd_from_zoom z =
      .error "Invalid zoom level. Please provide a zoom level between 0 and 23.") ∧
    get_gsd_from_zoom 24 =
      .error "Invalid zoom level. Please provide a zoom level between 0 and 23." ∧
    get_gsd_from_zoom (-1) =
      .error "Invalid zoom level. Please provide a zoom level between 0 and 23." := by
  refine ⟨by decide, by decide, by decide, ?_, ?_, by decide, by decide⟩
  · intro z h0 h23
    have hlen : gsd_meters_per_pixel.length = 24 := by decide
    have hz : z.toNat < gsd_meters_per_pixel.length := by omega
    refine ⟨hz, ?_⟩
    rw [get_gsd_from_zoom, dif_pos ⟨h0, by omega⟩]
  · intro z hz
    rw [get_gsd_from_zoom, dif_neg (by omega)]

theorem get_gsd_from_zoom_spec_witness :
    ((7:ℤ).toNat < gsd_meters_per_pixel.length ∧
      get_gsd_from_zoom 7 = .ok (mkRat 122190 100)) ∧
    get_gsd_from_zoom 30 =
      .error "Invalid zoom level. Please provide a zoom level between 0 and 23." := by
  obtain ⟨-, -, -, hin, hout, -, -⟩ := get_gsd_from_zoom_spec
  refine ⟨?_, hout 30 (Or.inr (by decide))⟩
  obtain ⟨h, he⟩ := hin 7 (by decide) (by decide)
  exact ⟨h, by rw [he]; rfl⟩

/-- C5.  For every positive GSD, `get_kernel_size` truncates
`2.0 / gsd` toward zero and adds 1 exactly when the truncation is even, so
the returned kernel size is always an odd integer of at least 1; in
particular `get_kernel_size(1.0) = 3` and `get_kernel_size(3.0) = 1`. -/
theorem get_kernel_size_spec (gsd : ℚ) (hpos : 0 < gsd) :
    (∃ k : ℤ, get_kernel_size gsd = .ok k ∧
      k % 2 = 1 ∧ 1 ≤ k ∧
      (truncQ (2 / gsd) % 2 = 0 → k = truncQ (2 / gsd) + 1) ∧
      (truncQ (2 / gsd) % 2 = 1 → k = truncQ (2 / gsd))) ∧
    get_kernel_size 1 = .ok 3 ∧ get_kernel_size 3 = .ok 1 := by
  refine ⟨?_, by decide, by decide⟩
  have hq : qdiv 2 gsd = 2 / gsd := qdiv_eq_div 2 gsd
  have hdivpos : 0 < 2 / gsd := div_pos two_pos hpos
  have htrunc : 0 ≤ truncQ (2 / gsd) := by
    rw [truncQ]
    exact Int.tdiv_nonneg (le_of_lt (Rat.num_pos.mpr hdivpos)) (by positivity)
  rw [get_kernel_size, if_neg hpos.ne']
  simp only [hq]
  rcases Int.emod_two_eq_zero_or_one (truncQ (2 / gsd)) with he | ho
  · refine ⟨truncQ (2 / gsd) + 1, by rw [if_pos he], by omega, by omega,
      fun _ => rfl, fun hodd => by omega⟩
  · refine ⟨truncQ (2 / gsd), by rw [if_neg (by omega)], ho, by omega,
      fun heven => by omega, fun _ => rfl⟩

theorem get_kernel_size_spec_witness :
    (0:ℚ) < 1 ∧ get_kernel_size 1 = .ok 3 := by
  exact ⟨by decide, (get_kernel_size_spec 1 (by decide)).2.1⟩

theorem get_kernel_size_no_validation :
    get_kernel_size (mkRat (-1) 1) = .ok (-1) ∧ (mkRat (-1) 1 : ℚ) ≤ 0 := by
  decide

/-- C7 (amended).  `get_kernel_size` performs no argument validation: for
every negative GSD it returns a (possibly non-positive) kernel size without
any error — e.g. `get_kernel_size(-1.0) = -1` — and only for GSD exactly
zero does it fail, with Python's `ZeroDivisionError` from the float
division rather than an argument-validation error. -/
theorem get_kernel_size_nonpositive_behaviour (gsd : ℚ) (hneg : gsd < 0) :
    (∃ k : ℤ, get_kernel_size gsd = .ok k) ∧
    get_kernel_size 0 = .error "ZeroDivisionError: float division by zero" ∧
    get_kernel_size (mkRat (-1) 1) = .ok (-1) := by
  refine ⟨?_, by decide, by decide⟩
  rw [get_kernel_size, if_neg hneg.ne]
  exact ⟨_, rfl⟩

theorem get_kernel_size_nonpositive_behaviour_witness :
    (mkRat (-1) 1 : ℚ) < 0 ∧ ∃ k : ℤ, get_kernel_size (mkRat (-1) 1) = .ok k := by
  exact ⟨by decide, (get_kernel_size_nonpositive_behaviour (mkRat (-1) 1) (by decide)).1⟩

/-- C2.  `get_vegetation_index` casts the bands to float and computes, per
pixel, VARI = (green − red) / (green + red − blue) for `"VARI"`,
GLI = (2·green − red − blue) / (2·green + red + blue) for `"GLI"`, and
RGRI = red / green for `"RGRI"`, preserving the input shape; whenever the
denominator is nonzero the pixel holds exactly the rational quotient of the
float-cast formula. -/
theorem get_vegetation_index_formulas (blue green red : List ℕ)
    (hg : green.length = blue.length) (hr : red.length = blue.length)
    (i : ℕ) (hi : i < blue.length) :
    ((get_vegetation_index blue green red "VARI").map (fun l => l.getD i .nan) =
      .ok (divValInt ((green.getD i 0 : ℤ) - (red.getD i 0 : ℤ))
        ((green.getD i 0 : ℤ) + (red.getD i 0 : ℤ) - (blue.getD i 0 : ℤ)))) ∧
    ((get_vegetation_index blue green red "GLI").map (fun l => l.getD i .nan) =
      .ok (divValInt (2 * (green.getD i 0 : ℤ) - (red.getD i 0 : ℤ) - (blue.getD i 0 : ℤ))
        (2 * (green.getD i 0 : ℤ) + (red.getD i 0 : ℤ) + (blue.getD i 0 : ℤ)))) ∧
    ((get_vegetation_index blue green red "RGRI").map (fun l => l.getD i .nan) =
      .ok (divValInt (red.getD i 0 : ℤ) (green.getD i 0 : ℤ))) ∧
    (∀ t l, get_vegetation_index blue green red t = .ok l → l.length = blue.length) ∧
    ((green.getD i 0 : ℚ) + (red.getD i 0 : ℚ) - (blue.getD i 0 : ℚ) ≠ 0 →
      (get_vegetation_index blue green red "VARI").map (fun l => l.getD i .nan) =
        .ok (.fin (((green.getD i 0 : ℚ) - (red.getD i 0 : ℚ)) /
          ((green.getD i 0 : ℚ) + (red.getD i 0 : ℚ) - (blue.getD i 0 : ℚ))))) ∧
    (2 * (green.getD i 0 : ℚ) + (red.getD i 0 : ℚ) + (blue.getD i 0 : ℚ) ≠ 0 →
      (get_vegetation_index blue green red "GLI").map (fun l => l.getD i .nan) =
        .ok (.fin ((2 * (green.getD i 0 : ℚ) - (red.getD i 0 : ℚ) - (blue.getD i 0 : ℚ)) /
          (2 * (green.getD i 0 : ℚ) + (red.getD i 0 : ℚ) + (blue.getD i 0 : ℚ))))) ∧
    ((green.getD i 0 : ℚ) ≠ 0 →
      (get_vegetation_index blue green red "RGRI").map (fun l => l.getD i .nan) =
        .ok (.fin ((red.getD i 0 : ℚ) / (green.getD i 0 : ℚ)))) := by
  have hvari : (get_vegetation_index blue green red "VARI").map (fun l => l.getD i .nan) =
      .ok (variCell (blue.getD i 0) (green.getD i 0) (red.getD i 0)) := by
    show Except.ok ((map3 variCell blue green red).getD i .nan) = _
    rw [map3_getD variCell blue green red hg hr i hi]
  have hgli : (get_vegetation_index blue green red "GLI").map (fun l => l.getD i .nan) =
      .ok (gliCell (blue.getD i 0) (green.getD i 0) (red.getD i 0)) := by
    show Except.ok ((map3 gliCell blue green red).getD i .nan) = _
    rw [map3_getD gliCell blue green red hg hr i hi]
  have hrgri : (get_vegetation_index blue green red "RGRI").map (fun l => l.getD i .nan) =
      .ok (rgriCell (blue.getD i 0) (green.getD i 0) (red.getD i 0)) := by
    show Except.ok ((map3 rgriCell blue green red).getD i .nan) = _
    rw [map3_getD rgriCell blue green red hg hr i hi]
  refine ⟨hvari, hgli, hrgri, ?_, ?_, ?_, ?_⟩
  · intro t l hl
    rw [get_vegetation_index] at hl
    cases hf : indexFormula t with
    | error e => rw [hf] at hl; exact absurd hl (by simp [Except.map])
    | ok f =>
      rw [hf] at hl
      simp only [Except.map] at hl
      injection hl with hl
      rw [← hl]
      exact map3_length f blue green red hg hr
  · intro hden
    have hz : (green.getD i 0 : ℤ) + (red.getD i 0 : ℤ) - (blue.getD i 0 : ℤ) ≠ 0 := by
      intro hc
      apply hden
      have h2 := congrArg (fun z : ℤ => (z : ℚ)) hc
      push_cast at h2
      linarith
    rw [hvari, variCell, divValInt_of_ne_zero _ hz]
    refine congrArg (fun z => Except.ok (Val.fin z)) ?_
    push_cast
    ring
  · intro hden
    have hz : 2 * (green.getD i 0 : ℤ) + (red.getD i 0 : ℤ) + (blue.getD i 0 : ℤ) ≠ 0 := by
      intro hc
      apply hden
      have h2 := congrArg (fun z : ℤ => (z : ℚ)) hc
      push_cast at h2
      linarith
    rw [hgli, gliCell, divValInt_of_ne_zero _ hz]
    refine congrArg (fun z => Except.ok (Val.fin z)) ?_
    push_cast
    ring
  · intro hden
    have hz : (green.getD i 0 : ℤ) ≠ 0 := by
      intro hc
      apply hden
      have h2 := congrArg (fun z : ℤ => (z : ℚ)) hc
      push_cast at h2
      linarith
    rw [hrgri, rgriCell, divValInt_of_ne_zero _ hz]
    refine congrArg (fun z => Except.ok (Val.fin z)) ?_
    push_cast
    ring

theorem get_vegetation_index_formulas_witness :
    (get_vegetation_index [10] [20] [5] "VARI").map (fun l => l.getD 0 .nan) =
      .ok (divValInt (((20:ℕ) : ℤ) - ((5:ℕ) : ℤ))
        (((20:ℕ) : ℤ) + ((5:ℕ) : ℤ) - ((10:ℕ) : ℤ))) := by
  exact (get_vegetation_index_formulas [10] [20] [5] (by decide) (by decide)
    0 (by decide)).1

theorem division_by_zero_counterexample :
    get_vegetation_index [1] [1] [0] "VARI" = .ok [.posInf] ∧
    Val.posInf ≠ Val.nan ∧
    get_vegetation_index [100] [100] [100] "VARI" = .ok [.fin 0] ∧
    Val.fin 0 ≠ Val.nan := by
  decide

/-- C3 (amended).  Per-pixel divisions in `get_vegetation_index` never raise
an exception: a zero denominator yields the NaN no-data sentinel exactly
when the numerator is also zero (0/0), and a signed infinity — not the
sentinel — when the numerator is nonzero.  The bands with
green = red = blue = c have VARI denominator c (not zero), so they yield
the finite value 0 when c ≠ 0 (e.g. c = 100) and the NaN sentinel only
when c = 0. -/
theorem division_by_zero_policy :
    (∀ a c : ℤ, c = 0 →
      divValInt a c =
        (if a = 0 then Val.nan else if 0 < a then Val.posInf else Val.negInf)) ∧
    (∀ (blue green red : List ℕ) (t : String),
      t = "VARI" ∨ t = "GLI" ∨ t = "RGRI" →
      ∃ l, get_vegetation_index blue green red t = .ok l) ∧
    (∀ k : ℕ, get_vegetation_index (List.replicate k 0) (List.replicate k 0)
      (List.replicate k 0) "VARI" = .ok (List.replicate k .nan)) ∧
    (∀ (k c : ℕ), 0 < c →
      get_vegetation_index (List.replicate k c) (List.replicate k c)
        (List.replicate k c) "VARI" = .ok (List.replicate k (.fin 0))) := by
  refine ⟨?_, ?_, ?_, ?_⟩
  · intro a c hc
    subst hc
    rw [divValInt, if_pos rfl]
  · intro blue green red t ht
    rcases ht with h | h | h <;> subst h <;> exact ⟨_, rfl⟩
  · intro k
    show Except.ok (map3 variCell _ _ _) = _
    rw [map3_replicate]
    rfl
  · intro k c hc
    show Except.ok (map3 variCell _ _ _) = _
    rw [map3_replicate]
    have hcell : variCell c c c = .fin 0 := by
      rw [variCell]
      simp only [sub_self, add_sub_cancel_right]
      rw [divValInt, if_neg (by exact_mod_cast hc.ne'), Rat.zero_divInt]
    rw [hcell]

theorem division_by_zero_policy_witness :
    divValInt 5 0 = Val.posInf ∧
    get_vegetation_index (List.replicate 2 0) (List.replicate 2 0)
      (List.replicate 2 0) "VARI" = .ok (List.replicate 2 .nan) ∧
    get_vegetation_index (List.replicate 2 100) (List.replicate 2 100)
      (List.replicate 2 100) "VARI" = .ok (List.replicate 2 (.fin 0)) := by
  have h := division_by_zero_policy
  refine ⟨?_, h.2.2.1 2, h.2.2.2 2 100 (by decide)⟩
  have h5 := h.1 5 0 rfl
  simpa using h5

theorem ok_bind {α β : Type} (a : α) (f : α → Except String β) :
    (Except.ok a >>= f) = f a := rfl

theorem error_bind {α β : Type} (e : String) (f : α → Except String β) :
    ((Except.error e : Except String α) >>= f) = Except.error e := rfl

theorem pure_eq_ok {α : Type} (a : α) :
    (pure a : Except String α) = Except.ok a := rfl

theorem ok_map {α β : Type} (f : α → β) (a : α) :
    (f <$> (Except.ok a : Except String α)) = Except.ok (f a) := rfl

theorem error_map {α β : Type} (f : α → β) (e : String) :
    (f <$> (Except.error e : Except String α)) = (Except.error e : Except String β) := rfl

/-- C6.  `process_image` never consults its `index_max` parameter: any two
values of it (including `None`) give identical results, because the source
calls `threshold(veg_index, index_min)`, leaving the upper bound at the
`threshold` default of 1.0. -/
theorem process_image_ignores_index_max {m n : ℕ} (blue green red : Grid m n ℕ)
    (zoom_level : ℤ) (index_min : Option ℚ) (imax imax' : Option ℚ)
    (vegetation_index : Option String) :
    process_image blue green red zoom_level index_min imax vegetation_index =
      process_image blue green red zoom_level index_min imax' vegetation_index := rfl

/-- C9.  `process_image` defaults `index_min` to 0.1 and `vegetation_index`
to `"VARI"` when they are passed as `None`, and when the stages succeed it
returns exactly the smoothed morphologically-filtered vegetation mask — the
first component of `threshold`'s output — discarding the non-vegetation
mask and all intermediate arrays. -/
theorem process_image_defaults_and_result {m n : ℕ} (blue green red : Grid m n ℕ)
    (zoom_level : ℤ) (index_min imax : Option ℚ) (vi : Option String) :
    (process_image blue green red zoom_level none imax none =
      process_image blue green red zoom_level (some (mkRat 1 10)) imax (some "VARI")) ∧
    (∀ (gsd : ℚ) (k : ℤ) (idx : Grid m n Val),
      get_gsd_from_zoom zoom_level = .ok gsd →
      get_kernel_size gsd = .ok k →
      get_vegetation_index_arr blue green red (vi.getD "VARI") = .ok idx →
      process_image blue green red zoom_level index_min imax vi =
        .ok (smoothing (morphological_operations
          (threshold_arr idx (index_min.getD (mkRat 1 10)) 1).1 k) k)) := by
  constructor
  · rfl
  · intro gsd k idx h1 h2 h3
    simp only [process_image, h1, h2, h3, ok_bind, ok_map, pure_eq_ok, threshold_arr]

theorem process_image_defaults_and_result_witness :
    process_image (fun _ : Fin 1 × Fin 1 => (100:ℕ)) (fun _ => 100) (fun _ => 100)
      0 none none none =
    .ok (smoothing (morphological_operations
      (threshold_arr (fun _ : Fin 1 × Fin 1 => variCell 100 100 100)
        (mkRat 1 10) 1).1 1) 1) := by
  exact (process_image_defaults_and_result (fun _ => 100) (fun _ => 100) (fun _ => 100)
    0 none none none).2 (mkRat 15641200 100) 1
    (fun _ : Fin 1 × Fin 1 => variCell 100 100 100) (by decide) (by decide) rfl

/-- C8 (amended).  An out-of-range zoom level aborts `process_image` with the
fixed `ValueError` message, which states the valid range 0–23 but does not
name the offending value; an unknown index type (with a valid zoom level)
aborts `process_image` with a message that does name the unsupported index.
In both cases the result is an error — no mask is returned. -/
theorem pipeline_error_reporting {m n : ℕ} (blue green red : Grid m n ℕ)
    (zoom_level : ℤ) (index_min imax : Option ℚ) (t : String) :
    (zoom_level < 0 ∨ 23 < zoom_level →
      process_image blue green red zoom_level index_min imax (some t) =
        .error "Invalid zoom level. Please provide a zoom level between 0 and 23.") ∧
    (0 ≤ zoom_level → zoom_level ≤ 23 → t ≠ "VARI" → t ≠ "GLI" → t ≠ "RGRI" →
      process_image blue green red zoom_level index_min imax (some t) =
        .error ("Unknown index type: " ++ t)) := by
  constructor
  · intro hz
    have h1 : get_gsd_from_zoom zoom_level =
        .error "Invalid zoom level. Please provide a zoom level between 0 and 23." := by
      rw [get_gsd_from_zoom, dif_neg (by omega)]
    simp only [process_image, h1, error_bind]
  · intro h0 h23 hv hg2 hr2
    have hbound : zoom_level.toNat < gsd_meters_per_pixel.length := by
      have h24 : gsd_meters_per_pixel.length = 24 := by decide
      omega
    have hgsd : get_gsd_from_zoom zoom_level =
        .ok (gsd_meters_per_pixel.get ⟨zoom_level.toNat, hbound⟩) := by
      rw [get_gsd_from_zoom, dif_pos ⟨h0, by omega⟩]
    have hne : gsd_meters_per_pixel.get ⟨zoom_level.toNat, hbound⟩ ≠ 0 := by
      have hall : ∀ j : Fin gsd_meters_per_pixel.length,
          gsd_meters_per_pixel.get j ≠ 0 := by decide
      exact hall _
    obtain ⟨k, hk⟩ : ∃ k, get_kernel_size
        (gsd_meters_per_pixel.get ⟨zoom_level.toNat, hbound⟩) = .ok k := by
      rw [get_kernel_size, if_neg hne]
      exact ⟨_, rfl⟩
    have hidx : get_vegetation_index_arr blue green red t =
        .error ("Unknown index type: " ++ t) := by
      rw [get_vegetation_index_arr, indexFormula, if_neg hv, if_neg hg2, if_neg hr2]
      rfl
    simp only [process_image, hgsd, hk, hidx, ok_bind, error_bind, error_map, pure_eq_ok, Option.getD_some]

theorem pipeline_error_reporting_witness :
    process_image (fun _ : Fin 1 × Fin 1 => (0:ℕ)) (fun _ => 0) (fun _ => 0)
      24 none none (some "VARI") =
      .error "Invalid zoom level. Please provide a zoom level between 0 and 23." ∧
    process_image (fun _ : Fin 1 × Fin 1 => (0:ℕ)) (fun _ => 0) (fun _ => 0)
      5 none none (some "NDVI") = .error ("Unknown index type: " ++ "NDVI") := by
  constructor
  · exact (pipeline_error_reporting (fun _ => 0) (fun _ => 0) (fun _ => 0)
      24 none none "VARI").1 (Or.inr (by decide))
  · exact (pipeline_error_reporting (fun _ => 0) (fun _ => 0) (fun _ => 0)
      5 none none "NDVI").2 (by decide) (by decide) (by decide) (by decide) (by decide)

theorem invalid_zoom_message_counterexample :
    get_gsd_from_zoom 24 =
      .error "Invalid zoom level. Please provide a zoom level between 0 and 23." ∧
    get_gsd_from_zoom (-1) = get_gsd_from_zoom 24 ∧
    get_gsd_from_zoom 30 = get_gsd_from_zoom 24 ∧
    ('4' ∈ "Invalid zoom level. Please provide a zoom level between 0 and 23.".data
      ↔ False) ∧
    ('4' ∈ "24".data ↔ True) := by
  decide

theorem morph_open_close_idem {m n : ℕ} {V : Type} [LinearOrder V]
    (x : Grid m n V) (s : ℕ) :
    closing (opening (closing (opening x s) s) s) s = closing (opening x s) s := by
  have h1 : opening (closing (opening x s) s) s ≤ closing (opening x s) s :=
    opening_le _ _
  have h2 := closing_mono (t := s) h1
  rw [closing_idem] at h2
  have h3 : opening x s ≤ opening (closing (opening x s) s) s := by
    have h4 := opening_mono (t := s) (le_closing (opening x s) s)
    rwa [opening_idem] at h4
  exact le_antisymm h2 (closing_mono h3)

/-- C10.  The opening-then-closing stage of `morphological_operations` is
idempotent: applying it twice with the same odd square kernel
(`kernel_size = 2t+1`, radius `t`) gives the same binary mask as applying
it once — in fact for every binary mask, in particular every already-clean
one. -/
theorem morphological_operations_idempotent {m n : ℕ} (mask : Grid m n Bool) (t : ℕ) :
    morphological_operations (morphological_operations mask (2 * (t : ℤ) + 1))
        (2 * (t : ℤ) + 1) =
      morphological_operations mask (2 * (t : ℤ) + 1) ∧
    radiusOfKernel (2 * (t : ℤ) + 1) = t := by
  constructor
  · unfold morphological_operations
    exact morph_open_close_idem mask _
  · rw [radiusOfKernel]
    omega
